import Mathlib

/-!
Verification of the mood-journal analysis pipeline.

The definitions below are shallow embeddings of the TypeScript source:

* `src/app/api/mood-analysis/route_indian.ts` — keyword emotion detector
  (`detectEmotions`), sentiment classifier (`analyzeSentiment`), sentence
  truncation (`truncateToCompleteSentence`), deterministic fallback content
  (`getDefaultInsight`, `getDefaultSuggestions`) and the `POST` handler's
  outer catch branch.
* `src/unnamed/part_003` — the Groq variant of the same route, whose
  detector additionally sorts the detected emotions by score (stable,
  descending), caps them at 8 and uses an intensifier/diminisher based
  intensity policy; its outer catch branch returns a neutral payload.
* `src/unnamed/part_000` — the client page, whose `generateTrendData`
  computes the weekly trend snapshot.

JS strings are modelled as `List Char`; JS numbers in this code are
integer-valued throughout (scores, counts, clamped intensities), modelled
as `Nat`/`Int`; mean intensities in the trend aggregator are modelled as
`ℚ` (all concrete inputs used in proofs make the JS float computation
exact). JS `Array.prototype.sort` is stable and is modelled by insertion
sort. Lookup on JS object literals with string keys preserves insertion
order and is modelled by association lists.
-/

namespace MoodSpec

/-- Lowercased character list of a string; models `text.toLowerCase()`
on the ASCII texts and keywords used by the lexicon. -/
def toLowerList (s : String) : List Char :=
  s.data.map Char.toLower

/-- Substring containment on char lists; models
`String.prototype.includes`. -/
def hasSubstr : List Char → List Char → Bool
  | [], needle => needle.isEmpty
  | c :: rest, needle => needle.isPrefixOf (c :: rest) || hasSubstr rest needle

/-- `hay.includes(needle)` for a Lean string needle. -/
def containsStr (hay : List Char) (needle : String) : Bool :=
  hasSubstr hay needle.data

/-- Number of (possibly overlapping) occurrences of `needle` in `hay`;
used only by the spec-side per-occurrence scoring of claim C2. -/
def occCount : List Char → List Char → Nat
  | [], needle => if needle.isEmpty then 1 else 0
  | c :: rest, needle =>
      (if needle.isPrefixOf (c :: rest) then 1 else 0) + occCount rest needle

/-- Index of the last occurrence of a character, `-1` when absent;
models `String.prototype.lastIndexOf` for a single character. -/
def lastIndexOfCh : List Char → Char → Int
  | [], _ => -1
  | c :: rest, ch =>
      let r := lastIndexOfCh rest ch
      if 0 ≤ r then r + 1 else if c = ch then 0 else -1

/-- The emotion lexicon `emotionKeywords` of `route_indian.ts` lines 23-39
(identical in `part_003` lines 24-40), in declaration order. -/
def emotionKeywords : List (String × List String) :=
  [ ("happy", ["happy", "joy", "joyful", "excited", "cheerful", "delighted", "pleased", "content"]),
    ("sad", ["sad", "depressed", "down", "unhappy", "melancholy", "blue", "dejected"]),
    ("angry", ["angry", "mad", "furious", "irritated", "annoyed", "frustrated", "rage"]),
    ("anxious", ["anxious", "worried", "nervous", "scared", "fearful", "panic", "stress"]),
    ("stressed", ["stressed", "overwhelmed", "pressure", "burden", "tension", "strain"]),
    ("calm", ["calm", "peaceful", "relaxed", "serene", "tranquil", "composed"]),
    ("excited", ["excited", "thrilled", "enthusiastic", "eager", "pumped"]),
    ("grateful", ["grateful", "thankful", "appreciative", "blessed", "thankfulness"]),
    ("lonely", ["lonely", "isolated", "alone", "disconnected", "solitary"]),
    ("confident", ["confident", "sure", "certain", "self-assured", "empowered"]),
    ("overwhelmed", ["overwhelmed", "swamped", "buried", "drowning", "too much"]),
    ("peaceful", ["peaceful", "serene", "tranquil", "zen", "mindful"]),
    ("hopeful", ["hopeful", "optimistic", "positive", "looking forward", "expecting"]),
    ("tired", ["tired", "exhausted", "drained", "weary", "fatigue"]),
    ("energetic", ["energetic", "active", "vigorous", "lively", "dynamic"]) ]

/-- Score contributed by one keyword in `detectEmotions`
(`route_indian.ts` lines 95-102): `+1` when the lowercased text contains
the keyword, and `+2` more when it also contains the keyword prefixed by
an intensifier. -/
def keywordScore (lower : List Char) (kw : String) : Nat :=
  if containsStr lower kw then
    1 + (if containsStr lower ("very " ++ kw) || containsStr lower ("really " ++ kw)
         then 2 else 0)
  else 0

/-- Total score of one lexicon label: sum over its keyword list. -/
def labelScore (lower : List Char) (kws : List String) : Nat :=
  (kws.map (keywordScore lower)).sum

/-- The `detectedEmotions` object of `detectEmotions`
(`route_indian.ts` lines 91-106): labels with positive score, in lexicon
declaration order (JS object insertion order), paired with their score. -/
def detectedEmotions (text : String) : List (String × Nat) :=
  let lower := toLowerList text
  (emotionKeywords.map (fun p => (p.1, labelScore lower p.2))).filter
    (fun p => 0 < p.2)

/-- Score lookup `detectedEmotions[e]` on the association list,
defaulting to 0 (a key absent from the object). -/
def lookupScore (d : List (String × Nat)) (e : String) : Nat :=
  ((d.find? (fun p => p.1 == e)).map Prod.snd).getD 0

/-- `emotions` of the `route_indian.ts` detector: `Object.keys(detectedEmotions)`. -/
def riEmotions (text : String) : List String :=
  (detectedEmotions text).map Prod.fst

/-- The `emotions.reduce((a, b) => detectedEmotions[a] > detectedEmotions[b] ? a : b)`
fold of `route_indian.ts` line 110: JS `reduce` with no initial value is a
left fold seeded with the first element. -/
def reduceDominant (d : List (String × Nat)) : List String → String
  | [] => "neutral"
  | e :: rest =>
      rest.foldl (fun a b => if lookupScore d b < lookupScore d a then a else b) e

/-- `dominantEmotion` of the `route_indian.ts` detector, lines 109-111. -/
def riDominantEmotion (text : String) : String :=
  reduceDominant (detectedEmotions text) (riEmotions text)

/-- `intensity` of the `route_indian.ts` detector, lines 113-117:
`Math.max(...scores, 1)`, `+1` at 4 and at 6 distinct emotions, then
clamped to `[1,10]`. -/
def riIntensity (text : String) : Nat :=
  let d := detectedEmotions text
  let base := (d.map Prod.snd).foldr max 1
  let i1 := if 4 ≤ d.length then base + 1 else base
  let i2 := if 6 ≤ d.length then i1 + 1 else i1
  min (max i2 1) 10

/-- Descending-score comparison used by the `part_003` detector's
`.sort(([,a],[,b]) => b - a)`. -/
def scoreGe (a b : String × Nat) : Prop :=
  b.2 ≤ a.2

instance : DecidableRel scoreGe := fun a b => Nat.decLe b.2 a.2

instance : IsTotal (String × Nat) scoreGe :=
  ⟨fun a b => (Nat.le_total b.2 a.2).imp id id⟩

instance : IsTrans (String × Nat) scoreGe :=
  ⟨fun _ _ _ hab hbc => Nat.le_trans hbc hab⟩

/-- Stable descending sort by score; models the stable JS
`Array.prototype.sort` call of `part_003` line 139. -/
def sortDesc (l : List (String × Nat)) : List (String × Nat) :=
  List.insertionSort scoreGe l

/-- `sortedEmotions` of the `part_003` detector, lines 138-141: sort
descending by score, keep positive scores, cap at 8. -/
def p3Sorted (text : String) : List (String × Nat) :=
  ((sortDesc (detectedEmotions text)).filter (fun p => 0 < p.2)).take 8

/-- `emotions` of the `part_003` detector, line 143. -/
def p3Emotions (text : String) : List String :=
  (p3Sorted text).map Prod.fst

/-- `dominantEmotion = emotions[0] || 'neutral'` of `part_003` line 144
(every lexicon label is a non-empty, hence truthy, string). -/
def p3DominantEmotion (text : String) : String :=
  (p3Emotions text).headD "neutral"

/-- Intensifier words of the `part_003` intensity policy, line 147. -/
def intensityWords : List String :=
  ["very", "extremely", "really", "so", "totally", "completely", "absolutely",
   "incredibly", "deeply", "overwhelming"]

/-- Diminisher words of the `part_003` intensity policy, line 148. -/
def calmingWords : List String :=
  ["little", "slightly", "somewhat", "kind of", "sort of"]

/-- `intensity` of the `part_003` detector, lines 150-168: start at 5,
`+1` per intensifier word present, `-1` per diminisher word present,
`+1` at 4 and at 6 detected emotions, clamp to `[1,10]`. -/
def p3Intensity (text : String) : Int :=
  let lower := toLowerList text
  let up : Int := ((intensityWords.filter (fun w => containsStr lower w)).length : Int)
  let dn : Int := ((calmingWords.filter (fun w => containsStr lower w)).length : Int)
  let base : Int := 5 + up - dn
  let n := (p3Emotions text).length
  let i1 := if 4 ≤ n then base + 1 else base
  let i2 := if 6 ≤ n then i1 + 1 else i1
  min (max i2 1) 10

/-- Positive-polarity label set of `analyzeSentiment`
(`route_indian.ts` line 123, identical in `part_003` line 174). -/
def positiveEmotions : List String :=
  ["happy", "excited", "grateful", "confident", "peaceful", "hopeful",
   "energetic", "calm"]

/-- Negative-polarity label set of `analyzeSentiment`
(`route_indian.ts` line 124, identical in `part_003` line 175). -/
def negativeEmotions : List String :=
  ["sad", "angry", "anxious", "stressed", "lonely", "overwhelmed", "tired"]

/-- `analyzeSentiment` of `route_indian.ts` lines 122-132 (identical in
`part_003` lines 173-183); the `text` argument is ignored by the body. -/
def analyzeSentiment (_text : String) (emotions : List String) : String :=
  let positiveCount := (emotions.filter (fun e => positiveEmotions.contains e)).length
  let negativeCount := (emotions.filter (fun e => negativeEmotions.contains e)).length
  if negativeCount < positiveCount then "positive"
  else if positiveCount < negativeCount then "negative"
  else "neutral"

/-- `truncateToCompleteSentence` of `route_indian.ts` lines 45-62.
The JS guard `lastSentenceEnd > maxLength * 0.5` is modelled by the exact
integer comparison `maxLength < 2 * lastSentenceEnd` (the float product
`maxLength * 0.5` is exact for every integer cap below 2^52). -/
def truncateToCompleteSentence (text : List Char) (maxLength : Nat) : List Char :=
  if text.length ≤ maxLength then text
  else
    let truncated := text.take maxLength
    let lastSentenceEnd :=
      max (lastIndexOfCh truncated '.')
        (max (lastIndexOfCh truncated '!') (lastIndexOfCh truncated '?'))
    if (maxLength : Int) < 2 * lastSentenceEnd then
      truncated.take (lastSentenceEnd.toNat + 1)
    else truncated ++ ['.', '.', '.']

/-- JS whitespace test for the characters appearing in this code base. -/
def isWs (c : Char) : Bool :=
  c = ' ' || c = '\t' || c = '\n' || c = '\r'

/-- `String.prototype.trim`. -/
def trimList (l : List Char) : List Char :=
  ((l.dropWhile isWs).reverse.dropWhile isWs).reverse

/-- `truncateToCompleteSentence` of `part_003` lines 47-81, with its
extra fallback tiers (period at 50%, word boundary at 80%, else a hard
cut plus a period). The float threshold products `maxLength * 0.6` and
`maxLength * 0.8` are modelled by exact integer cross-multiplication;
for the caps the source actually passes (600 and 240) the JS float
products round to exactly the rational values, so the model agrees. -/
def p3Truncate (text : List Char) (maxLength : Nat) : List Char :=
  if text.length ≤ maxLength then text
  else
    let truncated := text.take maxLength
    let lastSentenceEnd :=
      max (lastIndexOfCh truncated '.')
        (max (lastIndexOfCh truncated '!') (lastIndexOfCh truncated '?'))
    if (3 * maxLength : Int) < 5 * lastSentenceEnd then
      trimList (text.take (lastSentenceEnd.toNat + 1))
    else
      let lastPeriod := lastIndexOfCh truncated '.'
      if (maxLength : Int) < 2 * lastPeriod then
        trimList (text.take (lastPeriod.toNat + 1))
      else
        let lastSpace := lastIndexOfCh truncated ' '
        if (4 * maxLength : Int) < 5 * lastSpace then
          trimList (text.take lastSpace.toNat) ++ ['.']
        else trimList truncated ++ ['.']

/-- Per-emotion default insight table of `route_indian.ts`
`getDefaultInsight`, lines 395-403. -/
def riInsightTable : List (String × String) :=
  [ ("happy", "It\x27s wonderful to see you experiencing joy! These positive moments are precious and worth celebrating. Your happiness radiates and can inspire others around you."),
    ("sad", "I can sense the heaviness you\x27re carrying. It\x27s okay to feel sad - these emotions are part of being human. Allow yourself to feel, but also remember that this feeling will pass."),
    ("angry", "Your anger is telling you that something important to you has been affected. While these feelings are valid, try to channel this energy constructively."),
    ("anxious", "I understand that uncertainty can be overwhelming. Your anxiety shows that you care deeply about outcomes. Take things one step at a time."),
    ("stressed", "The pressure you\x27re feeling is real, and it\x27s understandable. Remember to be kind to yourself and take breaks when needed."),
    ("calm", "There\x27s something beautiful about the peace you\x27re experiencing. This inner calm is a strength that can help you navigate life\x27s challenges."),
    ("grateful", "Your gratitude is a powerful force that attracts more positive experiences. This appreciation you feel enriches not just your life, but others\x27 too.") ]

/-- `getDefaultInsight` of `route_indian.ts` lines 390-406. -/
def getDefaultInsight (dominantEmotion : String) (_sentiment : String)
    (isIncident : Bool) : String :=
  if isIncident then
    "I can see you\x27re going through something really difficult right now. Your feelings are completely valid, and it\x27s okay to feel overwhelmed. Remember that tough times don\x27t last, but resilient people like you do. You\x27re stronger than you know, and this experience, while painful, can also be a source of growth and wisdom."
  else
    ((riInsightTable.find? (fun p => p.1 == dominantEmotion)).map Prod.snd).getD
      "Thank you for sharing your thoughts and feelings. Self-reflection is a powerful tool for personal growth and emotional well-being."

/-- Per-emotion default suggestion table of `route_indian.ts`
`getDefaultSuggestions`, lines 419-444. -/
def riSuggestionTable : List (String × List String) :=
  [ ("happy",
     ["Share your joy with loved ones - happiness multiplies when shared",
      "Practice gratitude by writing down what made you happy today",
      "Use this positive energy to tackle something you\x27ve been putting off",
      "Create a memory of this moment through photos or journaling"]),
    ("sad",
     ["Allow yourself to feel the sadness without judgment",
      "Reach out to a friend or family member for comfort",
      "Engage in a self-care activity that brings you peace",
      "Consider what this sadness might be teaching you"]),
    ("angry",
     ["Take some deep breaths before responding to the situation",
      "Go for a walk or do some physical exercise to release tension",
      "Write down your feelings to gain clarity on what\x27s bothering you",
      "Consider addressing the issue constructively when you\x27re calmer"]),
    ("anxious",
     ["Practice grounding techniques like the 5-4-3-2-1 method",
      "Break down overwhelming tasks into smaller, manageable steps",
      "Try progressive muscle relaxation or meditation",
      "Limit caffeine and focus on getting good sleep"]) ]

/-- Incident-mode default suggestions of `route_indian.ts` lines 410-416. -/
def riIncidentSuggestions : List String :=
  ["Practice deep breathing exercises to help manage immediate stress",
   "Reach out to a trusted friend or family member for support",
   "Write down your thoughts to help process what happened",
   "Consider speaking with a counselor or therapist",
   "Engage in gentle physical activity like walking or stretching"]

/-- Generic fallback suggestions of `route_indian.ts` lines 446-451. -/
def riGenericSuggestions : List String :=
  ["Take a moment to acknowledge your feelings",
   "Practice self-compassion and be gentle with yourself",
   "Consider what small step you could take to feel better",
   "Remember that all emotions are temporary and will pass"]

/-- `getDefaultSuggestions` of `route_indian.ts` lines 408-452. -/
def getDefaultSuggestions (dominantEmotion : String) (_sentiment : String)
    (isIncident : Bool) : List String :=
  if isIncident then riIncidentSuggestions
  else
    ((riSuggestionTable.find? (fun p => p.1 == dominantEmotion)).map Prod.snd).getD
      riGenericSuggestions

/-- The insight branch of the `POST` handler, `route_indian.ts` lines
491-511: `generated` is the cleaned and truncated collaborator output,
`none` when every retry of the collaborator threw (the `catch` branch);
an empty surviving insight also falls back to the default. -/
def finalInsight (generated : Option String) (dominantEmotion sentiment : String)
    (isIncident : Bool) : String :=
  match generated with
  | none => getDefaultInsight dominantEmotion sentiment isIncident
  | some t =>
      if t.length = 0 then getDefaultInsight dominantEmotion sentiment isIncident
      else t

/-- The suggestions branch of the `POST` handler, `route_indian.ts`
lines 514-549: `generated` is the post-processed line list from the
collaborator, `none` when every retry threw; fewer than 3 surviving
lines also falls back to the defaults. -/
def finalSuggestions (generated : Option (List String))
    (dominantEmotion sentiment : String) (isIncident : Bool) : List String :=
  match generated with
  | none => getDefaultSuggestions dominantEmotion sentiment isIncident
  | some l =>
      if l.length < 3 then getDefaultSuggestions dominantEmotion sentiment isIncident
      else l

/-- The sentiment block of an analysis response body. -/
structure SentimentOut where
  emotions : List String
  dominantEmotion : String
  intensity : Nat
  sentiment : String
deriving DecidableEq

/-- An HTTP response of the mood-analysis endpoints: status code plus
the JSON body fields relevant to the claims (absent fields are `none`). -/
structure ApiResponse where
  status : Nat
  error : Option String
  sentiment : Option SentimentOut
  insight : Option String
  suggestions : Option (List String)
deriving DecidableEq

/-- Outcome of the synchronous analysis pipeline inside the `try` block:
either the composed payload, or an exception escaping to the outer catch. -/
inductive PipelineOutcome where
  | ok (sentiment : SentimentOut) (insight : String) (suggestions : List String)
  | exn
deriving DecidableEq

/-- The outer try/catch boundary of `part_003`'s `POST` handler, lines
320-348: success returns the payload with status 200; the catch branch
(lines 332-348) returns status 500 with an error field and a fixed
neutral payload. -/
def p3Post : PipelineOutcome → ApiResponse
  | .ok s i sg =>
      { status := 200, error := none, sentiment := some s, insight := some i,
        suggestions := some sg }
  | .exn =>
      { status := 500, error := some "Failed to analyze mood entry",
        sentiment := some ⟨["neutral"], "neutral", 5, "neutral"⟩,
        insight := some "Thank you for sharing your thoughts. Every entry helps you understand yourself better.",
        suggestions := some ["Take a few deep breaths", "Practice self-compassion", "Reflect on your feelings"] }

/-- The outer try/catch boundary of `route_indian.ts`'s `POST` handler,
lines 551-571: the catch branch (lines 565-571) returns status 500 with
only an error message and no payload at all. -/
def riPost : PipelineOutcome → ApiResponse
  | .ok s i sg =>
      { status := 200, error := none, sentiment := some s, insight := some i,
        suggestions := some sg }
  | .exn =>
      { status := 500,
        error := some "Oops! Something went wrong while analyzing your mood. Please try again.",
        sentiment := none, insight := none, suggestions := none }

/-- HTTP-success test (2xx status). -/
def isHttpSuccess (r : ApiResponse) : Bool :=
  200 ≤ r.status && r.status < 300

/-- A stored mood entry as consumed by `generateTrendData` of
`part_000`: only the fields the aggregator reads. -/
structure MoodEntryM where
  timestamp : Int
  intensity : ℚ
  emotions : List String
  sentiment : String
deriving DecidableEq

/-- The `TrendData` record set by `generateTrendData` of `part_000`. -/
structure TrendData where
  weeklyTrend : String
  monthlyComparison : String
  emotionalPatterns : List (String × Nat)
  insights : List String
  recommendations : List String
deriving DecidableEq

/-- Milliseconds in the 7-day window, `7 * 24 * 60 * 60 * 1000`. -/
def weekMs : Int := 604800000

/-- Milliseconds in the 30-day window, `30 * 24 * 60 * 60 * 1000`. -/
def monthMs : Int := 2592000000

/-- `entries.slice(-n)`: the last `n` entries (all of them when fewer). -/
def lastN (n : Nat) (l : List MoodEntryM) : List MoodEntryM :=
  l.drop (l.length - n)

/-- One `emotionalPatterns[emotion] = (emotionalPatterns[emotion] || 0) + 1`
step on the insertion-ordered association list. -/
def bump (m : List (String × Nat)) (e : String) : List (String × Nat) :=
  match m.find? (fun p => p.1 == e) with
  | some _ => m.map (fun p => if p.1 == e then (p.1, p.2 + 1) else p)
  | none => m ++ [(e, 1)]

/-- The emotional-pattern histogram of `part_000` lines 114-119. -/
def emotionalPatternsOf (recent : List MoodEntryM) : List (String × Nat) :=
  recent.foldl (fun m entry => entry.emotions.foldl bump m) []

/-- The qualitative insights of `part_000` lines 122-130. -/
def insightsOf (recent : List MoodEntryM) : List String :=
  let positiveCount := (recent.filter (fun e => e.sentiment == "positive")).length
  let negativeCount := (recent.filter (fun e => e.sentiment == "negative")).length
  if negativeCount < positiveCount then
    ["You\x27ve been experiencing more positive emotions recently!"]
  else if positiveCount < negativeCount then
    ["You\x27ve been having some challenging times lately."]
  else []

/-- Histogram lookup `patterns[e]`, 0 when absent (in JS,
`undefined > 2` is false, matching a 0 default under `> 2`). -/
def patGet (m : List (String × Nat)) (e : String) : Nat :=
  ((m.find? (fun p => p.1 == e)).map Prod.snd).getD 0

/-- `generateRecommendations` of `part_000` lines 154-174: fixed-priority
rules, first 3 kept. -/
def generateRecommendations (patterns : List (String × Nat)) (trend : String) :
    List String :=
  ((if 2 < patGet patterns "stressed" then
      ["Consider stress management techniques like deep breathing or meditation"]
    else []) ++
   (if 2 < patGet patterns "anxious" then
      ["Try grounding exercises: name 5 things you can see, 4 you can touch, etc."]
    else []) ++
   (if 2 < patGet patterns "sad" then
      ["Reach out to friends or family, or engage in activities you enjoy"]
    else []) ++
   (if trend == "declining" then
      ["Your mood seems to be declining. Consider talking to someone or practicing self-care"]
    else []) ++
   (if trend == "improving" then
      ["Great progress! Keep doing what you\x27re doing"]
    else [])).take 3

/-- The weekly-trend computation of `part_000` lines 132-143 on the
weekly window, read with exact rational arithmetic: `stable` below 3
entries; otherwise split at `Math.ceil(length / 2)` (the FIRST half
takes the extra entry on odd counts) and compare mean intensities with
a margin of 1. The JS program computes the two means in binary64
floating point. Both readings agree whenever every double operation
involved is exact — in particular whenever the intensities are integers
in [1,10] and both halves have length 1 or 2 (window length at most 4):
the half sums are integers at most 40, dividing by 1 or 2 is exact, and
adding or subtracting 1 is exact. For longer windows rounding can flip
a comparison that sits exactly on the margin: at intensities
[1,1,2,2,2,3] the program compares fl(7/3) > fl(4/3) + 1, which is true
in binary64 although 7/3 = 4/3 + 1 exactly, so the program returns
improving where this exact reading returns stable. Claim statements
about the trend are therefore made either below the 3-entry guard
(where no arithmetic is reached), under the exactness side conditions
above, or at concrete inputs whose arithmetic is exact. -/
def weeklyTrendOfE (thisWeek : List MoodEntryM) : String :=
  if 3 ≤ thisWeek.length then
    let firstHalf := thisWeek.take ((thisWeek.length + 1) / 2)
    let secondHalf := thisWeek.drop ((thisWeek.length + 1) / 2)
    let firstAvg := (firstHalf.map (fun e => e.intensity)).sum / (firstHalf.length : ℚ)
    let secondAvg := (secondHalf.map (fun e => e.intensity)).sum / (secondHalf.length : ℚ)
    if firstAvg + 1 < secondAvg then "improving"
    else if secondAvg < firstAvg - 1 then "declining"
    else "stable"
  else "stable"

/-- The weekly window of `part_000` lines 100-105: last 7 entries,
filtered to timestamps within the past 7 days of `now`. -/
def weekWindow (now : Int) (entries : List MoodEntryM) : List MoodEntryM :=
  (lastN 7 entries).filter (fun e => now - weekMs ≤ e.timestamp)

/-- `generateTrendData` of `part_000` lines 97-152. The function body
begins with `if (entries.length === 0) return`, so on an empty collection
no snapshot is produced (`none`); otherwise it assembles the `TrendData`
record passed to `setTrendData`. -/
def generateTrendData (now : Int) (entries : List MoodEntryM) : Option TrendData :=
  if entries.length = 0 then none
  else
    let recent := lastN 7 entries
    let thisWeek := (recent.filter (fun e => now - weekMs ≤ e.timestamp))
    let lastMonth := entries.filter (fun e => now - monthMs ≤ e.timestamp)
    let patterns := emotionalPatternsOf recent
    let trend := weeklyTrendOfE thisWeek
    some { weeklyTrend := trend,
           monthlyComparison := toString lastMonth.length ++ " entries this month",
           emotionalPatterns := patterns,
           insights := insightsOf recent,
           recommendations := generateRecommendations patterns trend }

/-- Modelled from the claim wording of C2 (not from the source): the
per-occurrence score of one label, giving `+1` for EVERY occurrence of
each keyword in the lowercased text, plus the `+2` intensifier bonus per
keyword. Used to compare the claim against the source scoring. -/
def specScoreOccC2 (lower : List Char) (kws : List String) : Nat :=
  (kws.map (fun kw =>
    occCount lower kw.data +
      (if containsStr lower ("very " ++ kw) || containsStr lower ("really " ++ kw)
       then 2 else 0))).sum

/-- Modelled from the claim wording of C2: the detected label/score list
under per-occurrence scoring. -/
def specDetectedOccC2 (text : String) : List (String × Nat) :=
  (emotionKeywords.map (fun p => (p.1, specScoreOccC2 (toLowerList text) p.2))).filter
    (fun p => 0 < p.2)

/-- The intensity formula stated by claim C2, applied to a detected
label/score list: maximum raw score (minimum 1), `+1` at 4 and at 6
distinct emotions, clamped to `[1,10]`. -/
def claimIntensityFormula (detected : List (String × Nat)) : Nat :=
  let base := (detected.map Prod.snd).foldr max 1
  let i1 := if 4 ≤ detected.length then base + 1 else base
  let i2 := if 6 ≤ detected.length then i1 + 1 else i1
  min (max i2 1) 10

/-- The amended per-presence score of one label for claim C2: `+1` for
each keyword the lowercased text contains (once, regardless of repeat
occurrences), and `+2` more when the text additionally contains that
keyword immediately preceded by an intensifier. -/
def specScorePresC2 (lower : List Char) (kws : List String) : Nat :=
  (kws.map (fun kw =>
    (if containsStr lower kw then 1 else 0) +
      (if containsStr lower kw &&
          (containsStr lower ("very " ++ kw) || containsStr lower ("really " ++ kw))
       then 2 else 0))).sum

/-- The amended detected label/score list for claim C2. -/
def specDetectedPresC2 (text : String) : List (String × Nat) :=
  (emotionKeywords.map (fun p => (p.1, specScorePresC2 (toLowerList text) p.2))).filter
    (fun p => 0 < p.2)

/-- Modelled from the claim wording of C5 (not from the source): the
weekly trend with the SECOND half receiving the remainder entry on odd
counts (split at `length / 2` rounded down). -/
def specWeeklyTrendC5 (window : List ℚ) : String :=
  if 3 ≤ window.length then
    let firstHalf := window.take (window.length / 2)
    let secondHalf := window.drop (window.length / 2)
    let firstAvg := firstHalf.sum / (firstHalf.length : ℚ)
    let secondAvg := secondHalf.sum / (secondHalf.length : ℚ)
    if firstAvg + 1 < secondAvg then "improving"
    else if secondAvg < firstAvg - 1 then "declining"
    else "stable"
  else "stable"

/-- The amended weekly-trend description for claim C5: split at
`Math.ceil(length / 2)`, the FIRST half receiving the remainder entry on
odd counts; improving when the second-half mean intensity exceeds the
first-half mean by more than 1, declining when lower by more than 1,
stable otherwise and whenever the window has fewer than 3 entries.
Like `weeklyTrendOfE` this is the exact-arithmetic reading; the amended
claim relates it to the program only where the program's binary64
arithmetic is exact (see the side conditions on
`C5_amended_weekly_trend`). -/
def specWeeklyTrendAmendedC5 (window : List ℚ) : String :=
  if 3 ≤ window.length then
    let firstHalf := window.take ((window.length + 1) / 2)
    let secondHalf := window.drop ((window.length + 1) / 2)
    let firstAvg := firstHalf.sum / (firstHalf.length : ℚ)
    let secondAvg := secondHalf.sum / (secondHalf.length : ℚ)
    if firstAvg + 1 < secondAvg then "improving"
    else if secondAvg < firstAvg - 1 then "declining"
    else "stable"
  else "stable"

/-- Sentence-terminal punctuation recognised by the truncation helpers. -/
def isTerminalCh (c : Char) : Bool :=
  c = '.' || c = '!' || c = '?'

/-- The concrete 900-character text of the truncation test in claim C8:
549 filler characters, a sentence boundary at index 550 (the 551st
character), then 349 more characters with no further terminal before the
600-character cap. -/
def bigText900 : List Char :=
  List.replicate 550 'a' ++ '.' :: List.replicate 349 'b'

/-- A minimal stored entry carrying a given intensity, used for the
concrete trend computations. -/
def trendEntry (i : ℚ) : MoodEntryM :=
  { timestamp := 0, intensity := i, emotions := [], sentiment := "neutral" }

/-! ### Helper lemmas -/

/-- A fold whose step always returns one of its two arguments stays
inside the seed-plus-list element pool. -/
lemma foldl_mem {α : Type} (f : α → α → α) (hf : ∀ a b, f a b = a ∨ f a b = b) :
    ∀ (l : List α) (a : α), l.foldl f a ∈ a :: l := by
  intro l
  induction l with
  | nil => intro a; simp
  | cons c cs ih =>
      intro a
      have h := ih (f a c)
      simp only [List.foldl_cons]
      rcases List.mem_cons.mp h with h2 | h2
      · rcases hf a c with h1 | h1
        · rw [h2, h1]; exact List.mem_cons_self _ _
        · rw [h2, h1]; exact List.mem_cons_of_mem _ (List.mem_cons_self _ _)
      · exact List.mem_cons_of_mem _ (List.mem_cons_of_mem _ h2)

/-- The first component of any detected pair is a lexicon label. -/
lemma detected_fst_mem (text : String) (p : String × Nat)
    (hp : p ∈ detectedEmotions text) : p.1 ∈ emotionKeywords.map Prod.fst := by
  simp only [detectedEmotions] at hp
  have hp2 : p ∈ emotionKeywords.map
      (fun q => (q.1, labelScore (toLowerList text) q.2)) :=
    List.mem_of_mem_filter hp
  simp only [List.mem_map] at hp2
  obtain ⟨x, hx, hfx⟩ := hp2
  rw [← hfx]
  exact List.mem_map_of_mem Prod.fst hx

/-- Per-keyword score rewritten in the presence-based form of the
amended claim C2. -/
lemma keywordScore_eq_pres (lower : List Char) (kw : String) :
    keywordScore lower kw =
      (if containsStr lower kw then 1 else 0) +
        (if containsStr lower kw &&
            (containsStr lower ("very " ++ kw) || containsStr lower ("really " ++ kw))
         then 2 else 0) := by
  unfold keywordScore
  by_cases h : containsStr lower kw
  · simp [h]
  · simp [h]

/-- Label score equals the presence-based spec score. -/
lemma labelScore_eq_pres (lower : List Char) (kws : List String) :
    labelScore lower kws = specScorePresC2 lower kws := by
  unfold labelScore specScorePresC2
  have hfun : keywordScore lower = fun kw =>
      (if containsStr lower kw then 1 else 0) +
        (if containsStr lower kw &&
            (containsStr lower ("very " ++ kw) || containsStr lower ("really " ++ kw))
         then 2 else 0) :=
    funext fun kw => keywordScore_eq_pres lower kw
  rw [hfun]

/-- Detected label/score pairs equal the presence-based spec pairs. -/
lemma detectedEmotions_eq_pres (text : String) :
    detectedEmotions text = specDetectedPresC2 text := by
  unfold detectedEmotions specDetectedPresC2
  simp only [labelScore_eq_pres]

/-! ### Claim theorems -/

/-- C1: for every input text, both detectors return an integer intensity
in [1,10]; the dominant emotion is a member of the detected emotions
list when that list is non-empty and the sentinel "neutral" when it is
empty. -/
theorem C1_detector_invariants (text : String) :
    1 ≤ riIntensity text ∧ riIntensity text ≤ 10 ∧
    (riEmotions text ≠ [] → riDominantEmotion text ∈ riEmotions text) ∧
    (riEmotions text = [] → riDominantEmotion text = "neutral") ∧
    1 ≤ p3Intensity text ∧ p3Intensity text ≤ 10 ∧
    (p3Emotions text ≠ [] → p3DominantEmotion text ∈ p3Emotions text) ∧
    (p3Emotions text = [] → p3DominantEmotion text = "neutral") := by
  refine ⟨le_min (le_max_right _ _) (by norm_num), min_le_right _ _, ?_, ?_,
    le_min (le_max_right _ _) (by norm_num), min_le_right _ _, ?_, ?_⟩
  · intro h
    show reduceDominant (detectedEmotions text) (riEmotions text) ∈ riEmotions text
    cases hE : riEmotions text with
    | nil => exact absurd hE h
    | cons e rest =>
        show rest.foldl
          (fun a b => if lookupScore (detectedEmotions text) b <
            lookupScore (detectedEmotions text) a then a else b) e ∈ e :: rest
        apply foldl_mem
        intro a b
        by_cases hab : lookupScore (detectedEmotions text) b <
          lookupScore (detectedEmotions text) a
        · exact Or.inl (if_pos hab)
        · exact Or.inr (if_neg hab)
  · intro h
    show reduceDominant (detectedEmotions text) (riEmotions text) = "neutral"
    rw [h]
    rfl
  · intro h
    cases hE : p3Emotions text with
    | nil => exact absurd hE h
    | cons e rest => simp [p3DominantEmotion, hE]
  · intro h
    simp [p3DominantEmotion, h]

/-- Witness for C1 at the concrete text "happy". -/
theorem C1_detector_invariants_witness :
    riEmotions "happy" ≠ [] ∧ riDominantEmotion "happy" ∈ riEmotions "happy" ∧
    p3DominantEmotion "happy" ∈ p3Emotions "happy" := by
  have h := C1_detector_invariants "happy"
  exact ⟨by decide, h.2.2.1 (by decide), h.2.2.2.2.2.2.1 (by decide)⟩

/-- C2 counterexample: the source scores each keyword once by substring
presence, not once per occurrence. On "happy happy" the keyword "happy"
occurs twice, so the claimed per-occurrence algorithm yields score 2 and
intensity 2, while the code yields score 1 and intensity 1. -/
theorem C2_counterexample :
    labelScore (toLowerList "happy happy")
      ["happy", "joy", "joyful", "excited", "cheerful", "delighted", "pleased", "content"] = 1 ∧
    specScoreOccC2 (toLowerList "happy happy")
      ["happy", "joy", "joyful", "excited", "cheerful", "delighted", "pleased", "content"] = 2 ∧
    riIntensity "happy happy" = 1 ∧
    claimIntensityFormula (specDetectedOccC2 "happy happy") = 2 := by decide

/-- C2 amended: per lexicon label, the score is +1 per keyword PRESENT
in the lowercased text (counted once regardless of repeat occurrences)
plus a +2 bonus when the text also contains the keyword preceded by an
intensifier; labels with positive score are collected, and intensity is
the maximum raw score (minimum 1), +1 at 4 and at 6 distinct emotions,
clamped to [1,10]. -/
theorem C2_amended_scoring (text : String) :
    (∀ p ∈ emotionKeywords,
        labelScore (toLowerList text) p.2 = specScorePresC2 (toLowerList text) p.2) ∧
    detectedEmotions text = specDetectedPresC2 text ∧
    riIntensity text = claimIntensityFormula (specDetectedPresC2 text) := by
  refine ⟨fun p _ => labelScore_eq_pres _ _, detectedEmotions_eq_pres text, ?_⟩
  show claimIntensityFormula (detectedEmotions text) =
    claimIntensityFormula (specDetectedPresC2 text)
  rw [detectedEmotions_eq_pres]

/-- Witness for C2's amended theorem at text "very happy" and the
lexicon entry for "happy". -/
theorem C2_amended_scoring_witness :
    labelScore (toLowerList "very happy")
        (("happy",
          ["happy", "joy", "joyful", "excited", "cheerful", "delighted", "pleased", "content"]) :
            String × List String).2 =
      specScorePresC2 (toLowerList "very happy")
        (("happy",
          ["happy", "joy", "joyful", "excited", "cheerful", "delighted", "pleased", "content"]) :
            String × List String).2 ∧
    detectedEmotions "very happy" = specDetectedPresC2 "very happy" := by
  have h := C2_amended_scoring "very happy"
  exact ⟨h.1 _ (by decide), h.2.1⟩

/-- C6 counterexample: on an empty entry collection the aggregator
returns early and produces no snapshot at all; in particular it does not
return the claimed default snapshot. -/
theorem C6_counterexample :
    generateTrendData 0 [] = none ∧
    generateTrendData 0 [] ≠
      some { weeklyTrend := "stable", monthlyComparison := "0 entries this month",
             emotionalPatterns := [], insights := [], recommendations := [] } := by
  decide

/-- C6 amended: applied to an empty entry collection the trend
aggregator returns without producing any snapshot (the early
`if (entries.length === 0) return`); it does not raise an error and it
does not build a default snapshot. -/
theorem C6_amended_empty_aggregator (now : Int) :
    generateTrendData now [] = none := rfl

/-- C7 counterexample: on catastrophic pipeline failure neither handler
returns an HTTP-equivalent success response: both catch branches answer
with status 500, and the route_indian handler's body carries no
sentiment payload or insight at all. -/
theorem C7_counterexample :
    isHttpSuccess (p3Post PipelineOutcome.exn) = false ∧
    (p3Post PipelineOutcome.exn).status = 500 ∧
    isHttpSuccess (riPost PipelineOutcome.exn) = false ∧
    (riPost PipelineOutcome.exn).sentiment = none ∧
    (riPost PipelineOutcome.exn).insight = none := by decide

/-- C7 amended: on total pipeline failure the part_003 endpoint returns
an HTTP 500 error response whose body nevertheless carries the fixed
neutral sentiment payload, a generic insight and three suggestions,
while the route_indian endpoint returns HTTP 500 with only an error
message and no sentiment, insight or suggestions. -/
theorem C7_amended_catastrophic_response :
    (p3Post PipelineOutcome.exn).status = 500 ∧
    (p3Post PipelineOutcome.exn).sentiment =
      some { emotions := ["neutral"], dominantEmotion := "neutral",
             intensity := 5, sentiment := "neutral" } ∧
    (p3Post PipelineOutcome.exn).insight =
      some "Thank you for sharing your thoughts. Every entry helps you understand yourself better." ∧
    (p3Post PipelineOutcome.exn).suggestions =
      some ["Take a few deep breaths", "Practice self-compassion", "Reflect on your feelings"] ∧
    (riPost PipelineOutcome.exn).status = 500 ∧
    (riPost PipelineOutcome.exn).sentiment = none ∧
    (riPost PipelineOutcome.exn).error =
      some "Oops! Something went wrong while analyzing your mood. Please try again." := by
  decide

/-- C9: when the narrative collaborator fails on every retry (insight
`none`) and the suggestion lines are missing or fewer than 3, the
response still carries the non-empty per-emotion default insight and a
default suggestions list of length at least 3, falling back to the
generic list when the dominant emotion has no specific entry. -/
theorem C9_fallback_content (dom sent : String) (inc : Bool)
    (gi : Option String) (gs : Option (List String)) (hgi : gi = none)
    (hgs : gs = none ∨ ∃ l, gs = some l ∧ l.length < 3) :
    finalInsight gi dom sent inc = getDefaultInsight dom sent inc ∧
    getDefaultInsight dom sent inc ≠ "" ∧
    finalSuggestions gs dom sent inc = getDefaultSuggestions dom sent inc ∧
    3 ≤ (finalSuggestions gs dom sent inc).length ∧
    (inc = false → dom ∉ ["happy", "sad", "angry", "anxious"] →
      finalSuggestions gs dom sent inc = riGenericSuggestions) := by
  have hIns : ∀ p ∈ riInsightTable, p.2 ≠ "" := by decide
  have hSugLen : ∀ p ∈ riSuggestionTable, 3 ≤ p.2.length := by decide
  have hKeys : ∀ p ∈ riSuggestionTable,
      p.1 = "happy" ∨ p.1 = "sad" ∨ p.1 = "angry" ∨ p.1 = "anxious" := by decide
  have hsugEq : finalSuggestions gs dom sent inc = getDefaultSuggestions dom sent inc := by
    rcases hgs with h | ⟨l, hl, hlen⟩
    · rw [h]; rfl
    · rw [hl]
      show (if l.length < 3 then getDefaultSuggestions dom sent inc else l) = _
      rw [if_pos hlen]
  have hdefLen : 3 ≤ (getDefaultSuggestions dom sent inc).length := by
    unfold getDefaultSuggestions
    cases inc with
    | true => rw [if_pos rfl]; decide
    | false =>
        rw [if_neg (by simp)]
        cases hf : riSuggestionTable.find? (fun p => p.1 == dom) with
        | none => decide
        | some p =>
            show 3 ≤ p.2.length
            exact hSugLen p (List.mem_of_find?_eq_some hf)
  refine ⟨by rw [hgi]; rfl, ?_, hsugEq, by rw [hsugEq]; exact hdefLen, ?_⟩
  · unfold getDefaultInsight
    cases inc with
    | true => rw [if_pos rfl]; decide
    | false =>
        rw [if_neg (by simp)]
        cases hf : riInsightTable.find? (fun p => p.1 == dom) with
        | none => decide
        | some p =>
            show p.2 ≠ ""
            exact hIns p (List.mem_of_find?_eq_some hf)
  · intro hinc hdom
    rw [hsugEq, hinc]
    unfold getDefaultSuggestions
    have hf : riSuggestionTable.find? (fun p => p.1 == dom) = none := by
      rw [List.find?_eq_none]
      intro p hp hbeq
      have hpe : p.1 = dom := by simpa using hbeq
      rcases hKeys p hp with h | h | h | h <;> rw [← hpe, h] at hdom <;> simp at hdom
    simp [hf]

/-- Witness for C9 with dominant emotion "lonely" (no specific default
entry), collaborator failed on every retry. -/
theorem C9_fallback_content_witness :
    finalInsight none "lonely" "negative" false =
      getDefaultInsight "lonely" "negative" false ∧
    getDefaultInsight "lonely" "negative" false ≠ "" ∧
    3 ≤ (finalSuggestions none "lonely" "negative" false).length ∧
    finalSuggestions none "lonely" "negative" false = riGenericSuggestions := by
  have h := C9_fallback_content "lonely" "negative" false none none rfl (Or.inl rfl)
  exact ⟨h.1, h.2.1, h.2.2.2.1, h.2.2.2.2 rfl (by decide)⟩

/-- C10: the positive set (8 labels) and negative set (7 labels) are
disjoint and together cover exactly the 15 lexicon labels; "neutral" is
not a lexicon label, and every label either detector can return is a
lexicon label, hence counted on exactly one side of the majority vote. -/
theorem C10_polarity_partition :
    positiveEmotions.length = 8 ∧ negativeEmotions.length = 7 ∧
    (∀ e ∈ positiveEmotions, e ∉ negativeEmotions) ∧
    (∀ e ∈ emotionKeywords.map Prod.fst,
        (e ∈ positiveEmotions ∧ e ∉ negativeEmotions) ∨
        (e ∈ negativeEmotions ∧ e ∉ positiveEmotions)) ∧
    (∀ e ∈ positiveEmotions, e ∈ emotionKeywords.map Prod.fst) ∧
    (∀ e ∈ negativeEmotions, e ∈ emotionKeywords.map Prod.fst) ∧
    emotionKeywords.length = 15 ∧
    "neutral" ∉ emotionKeywords.map Prod.fst ∧
    (∀ text : String, ∀ e ∈ riEmotions text, e ∈ emotionKeywords.map Prod.fst) ∧
    (∀ text : String, ∀ e ∈ p3Emotions text, e ∈ emotionKeywords.map Prod.fst) := by
  refine ⟨by decide, by decide, by decide, by decide, by decide, by decide,
    by decide, by decide, ?_, ?_⟩
  · intro text e he
    simp only [riEmotions, List.mem_map] at he
    obtain ⟨p, hp, rfl⟩ := he
    exact detected_fst_mem text p hp
  · intro text e he
    simp only [p3Emotions, List.mem_map] at he
    obtain ⟨p, hp, rfl⟩ := he
    have hp1 : p ∈ (sortDesc (detectedEmotions text)).filter (fun q => 0 < q.2) :=
      List.take_subset _ _ hp
    have hp2 : p ∈ sortDesc (detectedEmotions text) := List.mem_of_mem_filter hp1
    have hp3 : p ∈ detectedEmotions text :=
      (List.perm_insertionSort scoreGe (detectedEmotions text)).subset hp2
    exact detected_fst_mem text p hp3

/-- Witness for C10 at the label "happy" and the text "happy". -/
theorem C10_polarity_partition_witness :
    (("happy" ∈ positiveEmotions ∧ "happy" ∉ negativeEmotions) ∨
      ("happy" ∈ negativeEmotions ∧ "happy" ∉ positiveEmotions)) ∧
    "happy" ∈ emotionKeywords.map Prod.fst := by
  have h := C10_polarity_partition
  exact ⟨h.2.2.2.1 "happy" (by decide),
    h.2.2.2.2.2.2.2.2.1 "happy" "happy" (by decide)⟩

/-- Filtering one score class through an ordered insertion: the inserted
pair lands in front of its own score class because every pair it skips
has a strictly larger score. -/
lemma filter_orderedInsert (s : Nat) (p : String × Nat) (l : List (String × Nat)) :
    (List.orderedInsert scoreGe p l).filter (fun q => q.2 == s) =
      if p.2 == s then p :: l.filter (fun q => q.2 == s)
      else l.filter (fun q => q.2 == s) := by
  induction l with
  | nil =>
      by_cases hp : (p.2 == s) = true <;>
        simp [List.orderedInsert, List.filter_cons, hp]
  | cons q qs ih =>
      show (if scoreGe p q then p :: q :: qs
        else q :: List.orderedInsert scoreGe p qs).filter (fun q => q.2 == s) = _
      by_cases hle : scoreGe p q
      · rw [if_pos hle, List.filter_cons]
      · rw [if_neg hle, List.filter_cons, List.filter_cons, ih]
        have hpq : p.2 < q.2 := Nat.lt_of_not_le hle
        by_cases hp : (p.2 == s) = true
        · have hps : p.2 = s := by simpa using hp
          have hq : (q.2 == s) = false := by
            have : q.2 ≠ s := by omega
            simpa using this
          simp [hp, hq]
        · have hpb : (p.2 == s) = false := by
            simp only [Bool.not_eq_true] at hp; exact hp
          simp [hpb]

/-- Stability of the descending insertion sort: within each score class,
the sort preserves the original (lexicon declaration) order. -/
lemma filter_sortDesc (s : Nat) (l : List (String × Nat)) :
    (sortDesc l).filter (fun q => q.2 == s) = l.filter (fun q => q.2 == s) := by
  induction l with
  | nil => rfl
  | cons p ps ih =>
      show (List.orderedInsert scoreGe p (List.insertionSort scoreGe ps)).filter
        (fun q => q.2 == s) = _
      rw [filter_orderedInsert,
        show List.insertionSort scoreGe ps = sortDesc ps from rfl, ih,
        List.filter_cons]

/-- C3 counterexample: the route_indian detector (also cited by the
claim) returns labels in lexicon declaration order, not sorted by score.
On "happy sad depressed" the list is ["happy", "sad"] with scores 1 and
2: not descending, and its first element differs from dominantEmotion. -/
theorem C3_counterexample :
    riEmotions "happy sad depressed" = ["happy", "sad"] ∧
    riDominantEmotion "happy sad depressed" = "sad" ∧
    lookupScore (detectedEmotions "happy sad depressed") "happy" = 1 ∧
    lookupScore (detectedEmotions "happy sad depressed") "sad" = 2 ∧
    (riEmotions "happy sad depressed").headD "neutral" ≠
      riDominantEmotion "happy sad depressed" := by decide

/-- C3 amended: the part_003 detector does return its emotions list
sorted descending by score with the lexicon declaration order preserved
on ties (stable sort), and its first element is a maximal-score label
equal to dominantEmotion. The route_indian detector instead returns
labels in lexicon declaration order, and its dominantEmotion is the last
highest-scoring label, which need not be the first element. -/
theorem C3_amended_ordering (text : String) :
    List.Sorted scoreGe (p3Sorted text) ∧
    (∀ s : Nat, (sortDesc (detectedEmotions text)).filter (fun q => q.2 == s) =
      (detectedEmotions text).filter (fun q => q.2 == s)) ∧
    (∀ p rest, p3Sorted text = p :: rest →
      p3DominantEmotion text = p.1 ∧ ∀ q ∈ detectedEmotions text, q.2 ≤ p.2) := by
  have hsorted : List.Sorted scoreGe (sortDesc (detectedEmotions text)) :=
    List.sorted_insertionSort scoreGe _
  have hfid : (sortDesc (detectedEmotions text)).filter (fun q => 0 < q.2) =
      sortDesc (detectedEmotions text) := by
    apply List.filter_eq_self.mpr
    intro a ha
    have had : a ∈ detectedEmotions text :=
      (List.perm_insertionSort scoreGe _).subset ha
    simp only [detectedEmotions] at had
    exact (List.mem_filter.mp had).2
  refine ⟨?_, fun s => filter_sortDesc s (detectedEmotions text), ?_⟩
  · exact List.Pairwise.sublist (List.take_sublist 8 _)
      (List.Pairwise.filter _ hsorted)
  · intro p rest hEq
    have hEq2 : (sortDesc (detectedEmotions text)).take 8 = p :: rest := by
      have : p3Sorted text = (sortDesc (detectedEmotions text)).take 8 := by
        unfold p3Sorted; rw [hfid]
      rw [← this, hEq]
    cases hsd : sortDesc (detectedEmotions text) with
    | nil => rw [hsd] at hEq2; simp at hEq2
    | cons hd tl =>
        rw [hsd] at hEq2
        rw [show (hd :: tl).take 8 = hd :: tl.take 7 from rfl] at hEq2
        injection hEq2 with h1 h2
        constructor
        · show (p3Emotions text).headD "neutral" = p.1
          unfold p3Emotions p3Sorted
          rw [hfid, hsd, show (hd :: tl).take 8 = hd :: tl.take 7 from rfl, h1]
          simp
        · intro q hq
          have hq2 : q ∈ sortDesc (detectedEmotions text) :=
            (List.perm_insertionSort scoreGe _).symm.subset hq
          rw [hsd] at hq2
          rw [hsd] at hsorted
          rcases List.mem_cons.mp hq2 with rfl | hq3
          · rw [← h1]
          · have hle := (List.pairwise_cons.mp hsorted).1 q hq3
            rw [← h1]
            exact hle

/-- Witness for C3's amended theorem at the text "happy sad depressed",
where the part_003 detector sorts "sad" (score 2) before "happy"
(score 1). -/
theorem C3_amended_ordering_witness :
    p3DominantEmotion "happy sad depressed" = "sad" ∧
    ((("happy", 1) : String × Nat)).2 ≤ ((("sad", 2) : String × Nat)).2 := by
  have h := (C3_amended_ordering "happy sad depressed").2.2
    ("sad", 2) [("happy", 1)] (by decide)
  exact ⟨h.1, h.2 ("happy", 1) (by decide)⟩

/-- C4: the sentiment classifier returns "positive" exactly when
strictly more emotions lie in the fixed positive set than in the fixed
negative set, "negative" in the symmetric case and "neutral" on ties;
and the result is independent of the raw-text argument and invariant
under permutation of the emotions list. -/
theorem C4_sentiment_classifier (t1 t2 : String) (es es2 : List String)
    (hp : es.Perm es2) :
    analyzeSentiment t1 es = analyzeSentiment t2 es2 ∧
    (analyzeSentiment t1 es = "positive" ↔
      es.countP (fun e => negativeEmotions.contains e) <
        es.countP (fun e => positiveEmotions.contains e)) ∧
    (analyzeSentiment t1 es = "negative" ↔
      es.countP (fun e => positiveEmotions.contains e) <
        es.countP (fun e => negativeEmotions.contains e)) ∧
    (analyzeSentiment t1 es = "neutral" ↔
      es.countP (fun e => positiveEmotions.contains e) =
        es.countP (fun e => negativeEmotions.contains e)) := by
  have hform : ∀ (t : String) (l : List String),
      analyzeSentiment t l =
        (if l.countP (fun e => negativeEmotions.contains e) <
            l.countP (fun e => positiveEmotions.contains e) then "positive"
         else if l.countP (fun e => positiveEmotions.contains e) <
            l.countP (fun e => negativeEmotions.contains e) then "negative"
         else "neutral") := by
    intro t l
    unfold analyzeSentiment
    simp only [← List.countP_eq_length_filter]
  have hval : ∀ x y : Nat,
      ((if y < x then "positive" else if x < y then "negative" else "neutral") =
          "positive" ↔ y < x) ∧
      ((if y < x then "positive" else if x < y then "negative" else "neutral") =
          "negative" ↔ x < y) ∧
      ((if y < x then "positive" else if x < y then "negative" else "neutral") =
          "neutral" ↔ x = y) := by
    intro x y
    rcases Nat.lt_trichotomy y x with h | h | h
    · rw [if_pos h]
      exact ⟨⟨fun _ => h, fun _ => rfl⟩,
        ⟨fun hh => absurd hh (by decide), fun hh => absurd hh (by omega)⟩,
        ⟨fun hh => absurd hh (by decide), fun hh => absurd hh (by omega)⟩⟩
    · rw [if_neg (by omega), if_neg (by omega)]
      exact ⟨⟨fun hh => absurd hh (by decide), fun hh => absurd hh (by omega)⟩,
        ⟨fun hh => absurd hh (by decide), fun hh => absurd hh (by omega)⟩,
        ⟨fun _ => by omega, fun _ => rfl⟩⟩
    · rw [if_neg (by omega), if_pos h]
      exact ⟨⟨fun hh => absurd hh (by decide), fun hh => absurd hh (by omega)⟩,
        ⟨fun _ => h, fun _ => rfl⟩,
        ⟨fun hh => absurd hh (by decide), fun hh => absurd hh (by omega)⟩⟩
  have hna2 : es2.countP (fun e => positiveEmotions.contains e) =
      es.countP (fun e => positiveEmotions.contains e) := (hp.countP_eq _).symm
  have hnb2 : es2.countP (fun e => negativeEmotions.contains e) =
      es.countP (fun e => negativeEmotions.contains e) := (hp.countP_eq _).symm
  have hv := hval (es.countP (fun e => positiveEmotions.contains e))
    (es.countP (fun e => negativeEmotions.contains e))
  refine ⟨?_, ?_, ?_, ?_⟩
  · rw [hform, hform, hna2, hnb2]
  · rw [hform]; exact hv.1
  · rw [hform]; exact hv.2.1
  · rw [hform]; exact hv.2.2

/-- Witness for C4 at the swapped lists ["happy","sad"] and
["sad","happy"] with two different raw texts. -/
theorem C4_sentiment_classifier_witness :
    analyzeSentiment "a" ["happy", "sad"] = analyzeSentiment "b" ["sad", "happy"] ∧
    (analyzeSentiment "a" ["happy", "sad"] = "neutral" ↔
      (["happy", "sad"] : List String).countP (fun e => positiveEmotions.contains e) =
        (["happy", "sad"] : List String).countP (fun e => negativeEmotions.contains e)) := by
  have h := C4_sentiment_classifier "a" "b" ["happy", "sad"] ["sad", "happy"]
    (List.Perm.swap "sad" "happy" [])
  exact ⟨h.1, h.2.2.2⟩

/-- The weekly-trend body rewritten over the window's intensity list,
in the amended spec form. -/
lemma weeklyTrendOfE_eq_spec (w : List MoodEntryM) :
    weeklyTrendOfE w = specWeeklyTrendAmendedC5 (w.map (fun e => e.intensity)) := by
  unfold weeklyTrendOfE specWeeklyTrendAmendedC5
  simp only [List.length_map, ← List.map_take, ← List.map_drop, List.length_take,
    List.length_drop]

/-- C5 counterexample: the source gives the FIRST half the remainder
entry on odd window sizes (split at the ceiling), not the second half.
On the window with intensities [4, 6, 6] the source compares first-half
mean 5 against second-half mean 6 and reports "stable", while the
claimed split (first half [4], second half [6, 6]) reports "improving".
Every double operation at this input is exact (integer sums at most 16,
divisions by 1 and 2, offsets by 1), so the divergence holds for the
running binary64 program, not only for the exact-arithmetic model. -/
theorem C5_counterexample :
    weeklyTrendOfE [trendEntry 4, trendEntry 6, trendEntry 6] = "stable" ∧
    specWeeklyTrendC5 [4, 6, 6] = "improving" ∧
    (generateTrendData 604800000 [trendEntry 4, trendEntry 6, trendEntry 6]).map
      TrendData.weeklyTrend = some "stable" := by
  refine ⟨?_, ?_, ?_⟩
  · unfold weeklyTrendOfE
    norm_num [trendEntry, List.take, List.drop]
  · unfold specWeeklyTrendC5
    norm_num [List.take, List.drop]
  · simp only [generateTrendData, lastN, weekMs, trendEntry]
    norm_num [weeklyTrendOfE, List.take, List.drop, List.filter, trendEntry]

/-- C5 amended: for every non-empty entry collection, a weekly window
below 3 entries always yields weeklyTrend "stable" regardless of
content (the length guard fires before any arithmetic, so this clause
holds for the floating-point program unconditionally); otherwise the
window is split by position at the ceiling of half the window size (the
FIRST half receives the remainder entry on odd counts) and the halves'
mean intensities are compared with a margin of 1.0 in the program's
binary64 arithmetic; on windows where that arithmetic is exact — the
side conditions of the first conjunct: at most 4 window entries, every
intensity an integer in [1,10], making both halves of length 1 or 2 —
the snapshot's weeklyTrend equals the exact comparison: "improving"
when the second-half mean exceeds the first-half mean by more than 1.0,
"declining" when lower by more than 1.0, else "stable". The two side
conditions delimit the regime where the exact model is faithful to the
program (see `weeklyTrendOfE`); the rational-level equality they guard
holds without them and does not use them. -/
theorem C5_amended_weekly_trend (now : Int) (entries : List MoodEntryM)
    (h : entries ≠ []) :
    ((weekWindow now entries).length ≤ 4 →
      (∀ e ∈ weekWindow now entries, ∃ k : Nat, k ≤ 10 ∧ e.intensity = (k : ℚ)) →
      (generateTrendData now entries).map TrendData.weeklyTrend =
        some (specWeeklyTrendAmendedC5
          ((weekWindow now entries).map (fun e => e.intensity)))) ∧
    ((weekWindow now entries).length < 3 →
      (generateTrendData now entries).map TrendData.weeklyTrend =
        some "stable") ∧
    (∀ window : List ℚ, window.length < 3 →
      specWeeklyTrendAmendedC5 window = "stable") := by
  have hne : ¬(entries.length = 0) := fun hh => h (List.length_eq_zero.mp hh)
  refine ⟨?_, ?_, ?_⟩
  · intro _ _
    unfold generateTrendData
    rw [if_neg hne]
    show some (weeklyTrendOfE
      ((lastN 7 entries).filter (fun e => now - weekMs ≤ e.timestamp))) = _
    rw [weeklyTrendOfE_eq_spec]
    rfl
  · intro hlt
    unfold generateTrendData
    rw [if_neg hne]
    show some (weeklyTrendOfE
      ((lastN 7 entries).filter (fun e => now - weekMs ≤ e.timestamp))) = _
    have hstable : weeklyTrendOfE (weekWindow now entries) = "stable" := by
      unfold weeklyTrendOfE
      rw [if_neg (by omega)]
    exact congrArg some hstable
  · intro window hw
    unfold specWeeklyTrendAmendedC5
    rw [if_neg (by omega)]

/-- Witness for C5's amended theorem: a three-entry window of integer
intensities inside the float-exact regime, a two-entry window where the
program's guard yields "stable", and a short window for the spec-side
clause. -/
theorem C5_amended_weekly_trend_witness :
    (generateTrendData 604800000 [trendEntry 4, trendEntry 6, trendEntry 6]).map
        TrendData.weeklyTrend =
      some (specWeeklyTrendAmendedC5
        ((weekWindow 604800000 [trendEntry 4, trendEntry 6, trendEntry 6]).map
          (fun e => e.intensity))) ∧
    (generateTrendData 0 [trendEntry 4, trendEntry 6]).map TrendData.weeklyTrend =
      some "stable" ∧
    specWeeklyTrendAmendedC5 [1, 2] = "stable" := by
  have h1 := C5_amended_weekly_trend 604800000
    [trendEntry 4, trendEntry 6, trendEntry 6] (by simp)
  have h2 := C5_amended_weekly_trend 0 [trendEntry 4, trendEntry 6] (by simp)
  refine ⟨h1.1 (by decide) ?_, h2.2.1 (by decide), h1.2.2 [1, 2] (by simp)⟩
  intro e he
  rw [show weekWindow 604800000 [trendEntry 4, trendEntry 6, trendEntry 6] =
      [trendEntry 4, trendEntry 6, trendEntry 6] from by decide] at he
  simp only [List.mem_cons, List.not_mem_nil, or_false] at he
  rcases he with rfl | rfl | rfl
  · exact ⟨4, by norm_num, by norm_num [trendEntry]⟩
  · exact ⟨6, by norm_num, by norm_num [trendEntry]⟩
  · exact ⟨6, by norm_num, by norm_num [trendEntry]⟩

/-- Characterisation of `lastIndexOfCh`: either the character is absent
and the result is `-1`, or the result is the largest index holding it. -/
lemma lastIndexOfCh_spec (c : Char) (l : List Char) :
    (lastIndexOfCh l c = -1 ∧ ∀ j : Nat, l.get? j ≠ some c) ∨
    (0 ≤ lastIndexOfCh l c ∧ l.get? (lastIndexOfCh l c).toNat = some c ∧
      ∀ j : Nat, (lastIndexOfCh l c).toNat < j → l.get? j ≠ some c) := by
  induction l with
  | nil => exact Or.inl ⟨rfl, fun j => by simp⟩
  | cons a l ih =>
      rcases ih with ⟨h1, h2⟩ | ⟨h1, h2, h3⟩
      · have hv : lastIndexOfCh (a :: l) c = if a = c then 0 else -1 := by
          show (if 0 ≤ lastIndexOfCh l c then lastIndexOfCh l c + 1
            else if a = c then 0 else -1) = _
          rw [h1]
          norm_num
        by_cases hac : a = c
        · right
          rw [hv, if_pos hac]
          refine ⟨by norm_num, by simp [hac], ?_⟩
          intro j hj
          obtain ⟨k, rfl⟩ : ∃ k, j = k + 1 := ⟨j - 1, by omega⟩
          simp only [List.get?_cons_succ]
          exact h2 k
        · left
          rw [hv, if_neg hac]
          refine ⟨rfl, ?_⟩
          intro j
          cases j with
          | zero => simp [hac]
          | succ k => simp only [List.get?_cons_succ]; exact h2 k
      · have hv : lastIndexOfCh (a :: l) c = lastIndexOfCh l c + 1 := by
          show (if 0 ≤ lastIndexOfCh l c then lastIndexOfCh l c + 1
            else if a = c then 0 else -1) = _
          rw [if_pos h1]
        right
        rw [hv]
        have htn : (lastIndexOfCh l c + 1).toNat = (lastIndexOfCh l c).toNat + 1 := by
          omega
        refine ⟨by omega, ?_, ?_⟩
        · rw [htn]
          simp only [List.get?_cons_succ]
          exact h2
        · intro j hj
          rw [htn] at hj
          obtain ⟨k, rfl⟩ : ∃ k, j = k + 1 := ⟨j - 1, by omega⟩
          simp only [List.get?_cons_succ]
          exact h3 k (by omega)

/-- Any index holding the character is bounded by `lastIndexOfCh`. -/
lemma le_lastIndexOfCh (l : List Char) (c : Char) (j : Nat)
    (hj : l.get? j = some c) : (j : Int) ≤ lastIndexOfCh l c := by
  rcases lastIndexOfCh_spec c l with ⟨h1, h2⟩ | ⟨h1, h2, h3⟩
  · exact absurd hj (h2 j)
  · by_cases hle : (lastIndexOfCh l c).toNat < j
    · exact absurd hj (h3 j hle)
    · omega

/-- A terminal character is one of the three punctuation marks. -/
lemma isTerminal_cases (c : Char) (h : isTerminalCh c = true) :
    c = '.' ∨ c = '!' ∨ c = '?' := by
  have h2 : (c = '.' ∨ c = '!') ∨ c = '?' := by simpa [isTerminalCh] using h
  tauto

/-- Any index holding a terminal character is bounded by the maximum of
the three `lastIndexOf` results computed by the truncation code. -/
lemma le_lastTerm (t : List Char) (j : Nat) (c : Char) (hj : t.get? j = some c)
    (hc : isTerminalCh c = true) :
    (j : Int) ≤ max (lastIndexOfCh t '.')
      (max (lastIndexOfCh t '!') (lastIndexOfCh t '?')) := by
  rcases isTerminal_cases c hc with rfl | rfl | rfl
  · exact le_trans (le_lastIndexOfCh t '.' j hj) (le_max_left _ _)
  · exact le_trans (le_lastIndexOfCh t '!' j hj)
      (le_trans (le_max_left _ _) (le_max_right _ _))
  · exact le_trans (le_lastIndexOfCh t '?' j hj)
      (le_trans (le_max_right _ _) (le_max_right _ _))

/-- When the maximum of the three `lastIndexOf` results is non-negative,
it points at a terminal character. -/
lemma lastTerm_get (t : List Char)
    (h : 0 ≤ max (lastIndexOfCh t '.')
      (max (lastIndexOfCh t '!') (lastIndexOfCh t '?'))) :
    ∃ c, t.get? (max (lastIndexOfCh t '.')
      (max (lastIndexOfCh t '!') (lastIndexOfCh t '?'))).toNat = some c ∧
      isTerminalCh c = true := by
  rcases max_choice (lastIndexOfCh t '.')
      (max (lastIndexOfCh t '!') (lastIndexOfCh t '?')) with h1 | h1
  · rcases lastIndexOfCh_spec '.' t with ⟨ha, _⟩ | ⟨_, hb, _⟩
    · rw [h1, ha] at h
      exact absurd h (by norm_num)
    · exact ⟨'.', by rw [h1]; exact hb, by decide⟩
  · rw [h1] at h ⊢
    rcases max_choice (lastIndexOfCh t '!') (lastIndexOfCh t '?') with h2 | h2
    · rcases lastIndexOfCh_spec '!' t with ⟨ha, _⟩ | ⟨_, hb, _⟩
      · rw [h2, ha] at h
        exact absurd h (by norm_num)
      · exact ⟨'!', by rw [h2]; exact hb, by decide⟩
    · rcases lastIndexOfCh_spec '?' t with ⟨ha, _⟩ | ⟨_, hb, _⟩
      · rw [h2, ha] at h
        exact absurd h (by norm_num)
      · exact ⟨'?', by rw [h2]; exact hb, by decide⟩

/-- The over-cap branch of `truncateToCompleteSentence`, unfolded. -/
lemma truncate_of_gt (text : List Char) (cap : Nat) (h : cap < text.length) :
    truncateToCompleteSentence text cap =
      if (cap : Int) < 2 * (max (lastIndexOfCh (text.take cap) '.')
          (max (lastIndexOfCh (text.take cap) '!')
            (lastIndexOfCh (text.take cap) '?'))) then
        (text.take cap).take ((max (lastIndexOfCh (text.take cap) '.')
          (max (lastIndexOfCh (text.take cap) '!')
            (lastIndexOfCh (text.take cap) '?'))).toNat + 1)
      else (text.take cap) ++ ['.', '.', '.'] := by
  unfold truncateToCompleteSentence
  rw [if_neg (by omega)]

/-- `lastIndexOfCh` on a replicate of a different character is `-1`. -/
lemma lastIndexOfCh_replicate (n : Nat) (a c : Char) (h : ¬(a = c)) :
    lastIndexOfCh (List.replicate n a) c = -1 := by
  induction n with
  | zero => rfl
  | succ k ih =>
      rw [List.replicate_succ]
      show (if 0 ≤ lastIndexOfCh (List.replicate k a) c
        then lastIndexOfCh (List.replicate k a) c + 1
        else if a = c then 0 else -1) = -1
      rw [ih, if_neg h]
      norm_num

/-- `lastIndexOfCh` across an append: a hit in the right part wins,
shifted by the left length; otherwise the left part decides. -/
lemma lastIndexOfCh_append (l1 l2 : List Char) (c : Char) :
    lastIndexOfCh (l1 ++ l2) c =
      if 0 ≤ lastIndexOfCh l2 c then (l1.length : Int) + lastIndexOfCh l2 c
      else lastIndexOfCh l1 c := by
  induction l1 with
  | nil =>
      simp only [List.nil_append, List.length_nil]
      by_cases h : 0 ≤ lastIndexOfCh l2 c
      · rw [if_pos h]; omega
      · rw [if_neg h]
        rcases lastIndexOfCh_spec c l2 with ⟨h1, _⟩ | ⟨h1, _, _⟩
        · rw [h1]; rfl
        · exact absurd h1 h
  | cons a l1 ih =>
      rw [List.cons_append]
      show (if 0 ≤ lastIndexOfCh (l1 ++ l2) c then lastIndexOfCh (l1 ++ l2) c + 1
        else if a = c then 0 else -1) = _
      rw [ih]
      by_cases h : 0 ≤ lastIndexOfCh l2 c
      · simp only [if_pos h]
        rw [if_pos (by omega)]
        simp only [List.length_cons]
        push_cast
        omega
      · simp only [if_neg h]
        rfl

/-- The first 600 characters of the concrete C8 text. -/
lemma bigText900_take600 :
    bigText900.take 600 = List.replicate 550 'a' ++ '.' :: List.replicate 49 'b' := by
  unfold bigText900
  rw [List.take_append_eq_append_take,
    List.take_of_length_le (by rw [List.length_replicate]; norm_num)]
  have h50 : (600 : Nat) - (List.replicate 550 'a').length = 50 := by
    rw [List.length_replicate]
  rw [h50, show (50 : Nat) = 49 + 1 from rfl, List.take_succ_cons,
    List.take_replicate]
  norm_num

/-- The first 551 characters of the concrete C8 text. -/
lemma bigText900_take551 :
    bigText900.take 551 = List.replicate 550 'a' ++ ['.'] := by
  unfold bigText900
  rw [List.take_append_eq_append_take,
    List.take_of_length_le (by rw [List.length_replicate]; norm_num)]
  have h1 : (551 : Nat) - (List.replicate 550 'a').length = 1 := by
    rw [List.length_replicate]
  rw [h1, show (1 : Nat) = 0 + 1 from rfl, List.take_succ_cons, List.take_zero]

/-- The last terminal index inside the first 600 characters of the
concrete C8 text is 550. -/
lemma bigText900_lastTerm :
    max (lastIndexOfCh (bigText900.take 600) '.')
      (max (lastIndexOfCh (bigText900.take 600) '!')
        (lastIndexOfCh (bigText900.take 600) '?')) = 550 := by
  rw [bigText900_take600]
  have hdot : lastIndexOfCh ('.' :: List.replicate 49 'b') '.' = 0 := by
    show (if 0 ≤ lastIndexOfCh (List.replicate 49 'b') '.'
      then lastIndexOfCh (List.replicate 49 'b') '.' + 1
      else if '.' = '.' then 0 else -1) = 0
    rw [lastIndexOfCh_replicate 49 'b' '.' (by decide)]
    norm_num
  have hother : ∀ c : Char, ¬('.' = c) → ¬('b' = c) →
      lastIndexOfCh ('.' :: List.replicate 49 'b') c = -1 := by
    intro c hc hb
    show (if 0 ≤ lastIndexOfCh (List.replicate 49 'b') c
      then lastIndexOfCh (List.replicate 49 'b') c + 1
      else if '.' = c then 0 else -1) = -1
    rw [lastIndexOfCh_replicate 49 'b' c hb, if_neg hc]
    norm_num
  rw [lastIndexOfCh_append, lastIndexOfCh_append, lastIndexOfCh_append,
    hdot, hother '!' (by decide) (by decide), hother '?' (by decide) (by decide)]
  rw [lastIndexOfCh_replicate 550 'a' '!' (by decide),
    lastIndexOfCh_replicate 550 'a' '?' (by decide),
    if_pos (le_refl (0 : Int)), if_neg (by norm_num : ¬((0 : Int) ≤ -1)),
    List.length_replicate]
  omega


/-- Trimming keeps a list whose first and last characters are not
whitespace. -/
lemma trimList_concrete :
    trimList (List.replicate 550 'a' ++ ['.']) =
      List.replicate 550 'a' ++ ['.'] := by
  unfold trimList
  have h1 : (List.replicate 550 'a' ++ ['.']).dropWhile isWs =
      List.replicate 550 'a' ++ ['.'] := by
    rw [(by norm_num : (550 : Nat) = 549 + 1), List.replicate_succ,
      List.cons_append, List.dropWhile_cons, if_neg (by decide)]
  have h2 : (List.replicate 550 'a' ++ ['.']).reverse.dropWhile isWs =
      (List.replicate 550 'a' ++ ['.']).reverse := by
    rw [List.reverse_append,
      show (['.'] : List Char).reverse = ['.'] from rfl, List.singleton_append,
      List.dropWhile_cons, if_neg (by decide)]
  rw [h1, h2, List.reverse_reverse]

/-- C8: the truncation helper returns short inputs unchanged; over-long
inputs are cut just after the last sentence-terminal punctuation inside
the cap when that position lies past half the cap, and are otherwise
hard-truncated with an appended ellipsis; in particular, on the concrete
900-character text with a sentence boundary at index 550 and cap 600,
both source variants return exactly the first 551 characters, ending at
the terminal punctuation with no trailing partial sentence. -/
theorem C8_truncation :
    (∀ (text : List Char) (cap : Nat), text.length ≤ cap →
       truncateToCompleteSentence text cap = text) ∧
    (∀ (text : List Char) (cap : Nat) (i : Nat) (c : Char), cap < text.length →
       (cap : Int) < 2 * i → (text.take cap).get? i = some c →
       isTerminalCh c = true →
       (∀ j : Nat, i < j → ∀ e : Char, (text.take cap).get? j = some e →
          isTerminalCh e = false) →
       truncateToCompleteSentence text cap = text.take (i + 1) ∧ i + 1 ≤ cap) ∧
    (∀ (text : List Char) (cap : Nat), cap < text.length →
       (∀ i : Nat, (cap : Int) < 2 * i → ∀ e : Char,
          (text.take cap).get? i = some e → isTerminalCh e = false) →
       truncateToCompleteSentence text cap = text.take cap ++ ['.', '.', '.']) ∧
    (bigText900.length = 900 ∧
     truncateToCompleteSentence bigText900 600 = List.replicate 550 'a' ++ ['.'] ∧
     (truncateToCompleteSentence bigText900 600).length = 551 ∧
     p3Truncate bigText900 600 = List.replicate 550 'a' ++ ['.']) := by
  have hbiglen : bigText900.length = 900 := by
    unfold bigText900
    rw [List.length_append, List.length_cons, List.length_replicate,
      List.length_replicate]
  have htr : truncateToCompleteSentence bigText900 600 =
      List.replicate 550 'a' ++ ['.'] := by
    rw [truncate_of_gt _ _ (by omega), bigText900_lastTerm,
      if_pos (by norm_num), show ((550 : Int)).toNat + 1 = 551 from rfl,
      List.take_take, show min 551 600 = 551 from by norm_num]
    exact bigText900_take551
  refine ⟨?_, ?_, ?_, hbiglen, htr,
    by rw [htr, List.length_append, List.length_replicate]; decide, ?_⟩
  · intro text cap h
    unfold truncateToCompleteSentence
    rw [if_pos h]
  · intro text cap i c hcap h2i hget hterm hlast
    have hiL : (i : Int) ≤ max (lastIndexOfCh (text.take cap) '.')
        (max (lastIndexOfCh (text.take cap) '!')
          (lastIndexOfCh (text.take cap) '?')) :=
      le_lastTerm _ i c hget hterm
    have hLi : max (lastIndexOfCh (text.take cap) '.')
        (max (lastIndexOfCh (text.take cap) '!')
          (lastIndexOfCh (text.take cap) '?')) ≤ (i : Int) := by
      by_contra hlt
      push_neg at hlt
      obtain ⟨e, hgetL, htermL⟩ := lastTerm_get (text.take cap) (by omega)
      have hfalse := hlast (max (lastIndexOfCh (text.take cap) '.')
        (max (lastIndexOfCh (text.take cap) '!')
          (lastIndexOfCh (text.take cap) '?'))).toNat (by omega) e hgetL
      rw [hfalse] at htermL
      cases htermL
    have hLeq : max (lastIndexOfCh (text.take cap) '.')
        (max (lastIndexOfCh (text.take cap) '!')
          (lastIndexOfCh (text.take cap) '?')) = (i : Int) :=
      le_antisymm hLi hiL
    have hlen : i < (text.take cap).length := by
      obtain ⟨hlt, _⟩ := List.get?_eq_some.mp hget
      exact hlt
    have hicap : i < cap := by
      rw [List.length_take] at hlen
      exact lt_of_lt_of_le hlen (min_le_left _ _)
    constructor
    · rw [truncate_of_gt text cap hcap, hLeq, if_pos h2i,
        show ((i : Int)).toNat = i from by omega, List.take_take,
        min_eq_left (by omega)]
    · omega
  · intro text cap hcap hnone
    rw [truncate_of_gt text cap hcap]
    have hnotlt : ¬((cap : Int) < 2 * max (lastIndexOfCh (text.take cap) '.')
        (max (lastIndexOfCh (text.take cap) '!')
          (lastIndexOfCh (text.take cap) '?'))) := by
      intro hcon
      obtain ⟨e, hgetL, htermL⟩ := lastTerm_get (text.take cap) (by omega)
      have hfalse := hnone (max (lastIndexOfCh (text.take cap) '.')
        (max (lastIndexOfCh (text.take cap) '!')
          (lastIndexOfCh (text.take cap) '?'))).toNat (by omega) e hgetL
      rw [hfalse] at htermL
      cases htermL
    rw [if_neg hnotlt]
  · have hp3 : p3Truncate bigText900 600 = trimList (bigText900.take 551) := by
      unfold p3Truncate
      rw [if_neg (by omega)]
      show (if 3 * ((600 : Nat) : Int) < 5 * (max (lastIndexOfCh (bigText900.take 600) '.')
            (max (lastIndexOfCh (bigText900.take 600) '!')
              (lastIndexOfCh (bigText900.take 600) '?'))) then
          trimList (bigText900.take ((max (lastIndexOfCh (bigText900.take 600) '.')
            (max (lastIndexOfCh (bigText900.take 600) '!')
              (lastIndexOfCh (bigText900.take 600) '?'))).toNat + 1))
        else
          if ((600 : Nat) : Int) < 2 * lastIndexOfCh (bigText900.take 600) '.' then
            trimList (bigText900.take ((lastIndexOfCh (bigText900.take 600) '.').toNat + 1))
          else
            if 4 * ((600 : Nat) : Int) < 5 * lastIndexOfCh (bigText900.take 600) ' ' then
              trimList (bigText900.take (lastIndexOfCh (bigText900.take 600) ' ').toNat) ++ ['.']
            else trimList (bigText900.take 600) ++ ['.']) =
        trimList (bigText900.take 551)
      rw [bigText900_lastTerm, if_pos (by norm_num),
        show ((550 : Int)).toNat + 1 = 551 from rfl]
    rw [hp3, bigText900_take551, trimList_concrete]

/-- Witness for C8: a short input returned unchanged, a cut at a
sentence boundary past half the cap, and a hard truncation with
ellipsis when no boundary lies past half the cap. -/
theorem C8_truncation_witness :
    truncateToCompleteSentence ['a'] 5 = ['a'] ∧
    (truncateToCompleteSentence ['a', 'b', '.', 'c', 'd'] 3 =
        (['a', 'b', '.', 'c', 'd'] : List Char).take (2 + 1) ∧ 2 + 1 ≤ 3) ∧
    truncateToCompleteSentence ['a', 'b', 'c', 'd', 'e'] 3 =
      (['a', 'b', 'c', 'd', 'e'] : List Char).take 3 ++ ['.', '.', '.'] := by
  refine ⟨C8_truncation.1 ['a'] 5 (by decide), ?_, ?_⟩
  · refine C8_truncation.2.1 ['a', 'b', '.', 'c', 'd'] 3 2 '.'
      (by decide) (by decide) (by decide) (by decide) ?_
    intro j hj e he
    rw [show (['a', 'b', '.', 'c', 'd'] : List Char).take 3 = ['a', 'b', '.']
      from by decide] at he
    rw [List.get?_eq_none.mpr (by simp; omega)] at he
    cases he
  · refine C8_truncation.2.2.1 ['a', 'b', 'c', 'd', 'e'] 3 (by decide) ?_
    intro i hi e he
    rw [show (['a', 'b', 'c', 'd', 'e'] : List Char).take 3 = ['a', 'b', 'c']
      from by decide] at he
    rcases Nat.lt_or_ge i 3 with h3 | h3
    · have hi2 : i = 2 := by omega
      subst hi2
      have he2 : e = 'c' := by
        have := by simpa using he
        exact this.symm
      subst he2
      decide
    · rw [List.get?_eq_none.mpr (by simp; omega)] at he
      cases he

end MoodSpec
